import Mathlib

/-!
Verification of the MCP stdio client (`mcp-client/client.py`).

The Python client is embedded shallowly:

* `ContentBlock`, `Message` mirror the Anthropic messages data model used by
  the client (a message's content is either a raw string or a block list).
* The external collaborators (the MCP session and the Anthropic model) are
  modelled by an `Env` record of pure functions: `tools` is what
  `session.list_tools()` returns, `model` is `anthropic.messages.create`
  (a function of the tool list and the message history), and `callTool`
  is `session.call_tool` (which may fail).
* `process_query` is a line-by-line translation of the body of the Python
  `process_query`: it seeds the history with the query, fetches the tool
  catalog once, performs the first model call, and then folds over the
  content blocks of THAT response (`scanBlocks`); re-assigning `response`
  inside the Python `for` loop does not change the sequence being iterated,
  so follow-up responses are only consumed through `response.content[0].text`
  (`firstBlockText`).
* Every externally visible effect (list_tools, messages.create, call_tool)
  is recorded in an event trace so that call counts and call arguments can
  be stated.
* Python exceptions are modelled with `Except PyError`; `str.endswith` is
  modelled as a character-suffix test; Python list values stored in the
  history are modelled with value (snapshot) semantics at append time.
-/

/-- Tool input: the ordered mapping of argument name to value that a
`tool_use` block carries (values kept opaque as strings). -/
abbrev ToolInput := List (String × String)

/-- Content blocks of the Anthropic messages API, as the client consumes and
produces them: text, tool_use and tool_result blocks. -/
inductive ContentBlock where
  | text (s : String)
  | toolUse (id name : String) (input : ToolInput)
  | toolResult (toolUseId : String) (content : String)
deriving DecidableEq, Repr

/-- Message content is either a raw string (the seeded user query) or a list
of content blocks, matching the two shapes `process_query` appends. -/
inductive MsgContent where
  | str (s : String)
  | blocks (bs : List ContentBlock)
deriving DecidableEq, Repr

/-- One entry of the `messages` history list. -/
structure Message where
  role : String
  content : MsgContent
deriving DecidableEq, Repr

/-- Python exceptions that the client's code paths can raise. -/
inductive PyError where
  | valueError (msg : String)
  | toolExecutionError (msg : String)
  | transportError (msg : String)
  | indexError
  | attributeError
deriving DecidableEq, Repr

/-- Tool descriptor as returned by `session.list_tools()`. -/
structure MCPTool where
  name : String
  description : String
  inputSchema : String
deriving DecidableEq, Repr

/-- Tool declaration in the shape the Anthropic SDK expects
(`{"name": ..., "description": ..., "input_schema": ...}`). -/
structure ProviderTool where
  name : String
  description : String
  input_schema : String
deriving DecidableEq, Repr

/-- The adapter from MCP tool descriptors to the provider's tool shape,
mirroring the `available_tools` list comprehension in `process_query`. -/
def toProviderSchema (ts : List MCPTool) : List ProviderTool :=
  ts.map fun t => ⟨t.name, t.description, t.inputSchema⟩

/-- Externally visible operations performed by the client, recorded in order. -/
inductive Event where
  | listTools
  | modelCall (tools : List ProviderTool) (messages : List Message)
  | toolCall (name : String) (input : ToolInput)
deriving DecidableEq, Repr

/-- The external collaborators of `process_query`: the MCP session's tool
catalog and tool executor, and the Anthropic model as a pure function of
the request payload. -/
structure Env where
  tools : List MCPTool
  model : List ProviderTool → List Message → List ContentBlock
  callTool : String → ToolInput → Except PyError String

/-- Outcome of one `process_query` run: the returned string or the raised
exception, the trace of external calls, and the final `messages` history. -/
structure QueryRun where
  result : Except PyError String
  events : List Event
  messages : List Message
deriving Repr

/-- Rendering of a tool-argument mapping inside the transcript note
(the Python code interpolates the args dict into an f-string). -/
def reprArgs (args : ToolInput) : String :=
  "\x7b" ++ String.intercalate ", " (args.map fun p => p.1 ++ ": " ++ p.2) ++ "\x7d"

/-- The transcript note `[Calling tool {name} with args {args}]` appended to
`final_text` for each executed tool call. -/
def toolNote (name : String) (args : ToolInput) : String :=
  "[Calling tool " ++ name ++ " with args " ++ reprArgs args ++ "]"

/-- Evaluation of `response.content[0].text` on a follow-up response: an empty
content list raises IndexError, and a first block without a `.text` attribute
raises AttributeError. -/
def firstBlockText : List ContentBlock → Except PyError String
  | [] => .error .indexError
  | .text t :: _ => .ok t
  | .toolUse _ _ _ :: _ => .error .attributeError
  | .toolResult _ _ :: _ => .error .attributeError

/-- The `for content in response.content:` loop of `process_query`, folding
over the content blocks of the initial model response.  Arguments `ft`, `buf`
and `msgs` are the `final_text`, `assistant_message_content` and `messages`
lists at the start of the remaining iteration.  A `text` block is appended to
the transcript and the pending buffer; a `tool_use` block is executed at once,
the buffer is committed as an assistant message followed by a `tool_result`
user message, a follow-up model call is made and its first block's text is
appended; any other block type matches neither branch and is skipped. -/
def scanBlocks (env : Env) (tools : List ProviderTool) :
    List ContentBlock → List String → List ContentBlock → List Message → QueryRun
  | [], ft, _, msgs => ⟨.ok (String.intercalate "\n" ft), [], msgs⟩
  | .text s :: rest, ft, buf, msgs =>
      scanBlocks env tools rest (ft ++ [s]) (buf ++ [.text s]) msgs
  | .toolResult _ _ :: rest, ft, buf, msgs =>
      scanBlocks env tools rest ft buf msgs
  | .toolUse id name input :: rest, ft, buf, msgs =>
      match env.callTool name input with
      | .error e => ⟨.error e, [.toolCall name input], msgs⟩
      | .ok res =>
        let ft' := ft ++ [toolNote name input]
        let buf' := buf ++ [.toolUse id name input]
        let msgs' := msgs ++
          [⟨"assistant", .blocks buf'⟩,
           ⟨"user", .blocks [.toolResult id res]⟩]
        let follow := env.model tools msgs'
        match firstBlockText follow with
        | .error e =>
            ⟨.error e, [.toolCall name input, .modelCall tools msgs'], msgs'⟩
        | .ok t =>
            let r := scanBlocks env tools rest (ft' ++ [t]) buf' msgs'
            ⟨r.result, .toolCall name input :: .modelCall tools msgs' :: r.events,
             r.messages⟩

/-- Shallow embedding of the Python `process_query` body: seed the history
with the raw query, fetch the tool catalog from the session, adapt it, make
the initial model call and fold over that response's content blocks. -/
def process_query (env : Env) (query : String) : QueryRun :=
  let messages : List Message := [⟨"user", .str query⟩]
  let available_tools := toProviderSchema env.tools
  let response := env.model available_tools messages
  let r := scanBlocks env available_tools response [] [] messages
  ⟨r.result, .listTools :: .modelCall available_tools messages :: r.events, r.messages⟩

/-- Subprocess launch parameters (`StdioServerParameters(command, args, ...)`). -/
structure StdioServerParameters where
  command : String
  args : List String
deriving DecidableEq, Repr

/-- Python's `str.endswith(post)` modelled as a character-suffix test. -/
def endsWithStr (s post : String) : Bool :=
  post.data.isSuffixOf s.data

/-- Shallow embedding of `connect_to_server` up to the subprocess launch:
the interpreter is chosen from the script extension, and an unrecognized
extension raises `ValueError` before any launch parameters are built (so no
subprocess is ever spawned on that path). -/
def connect_to_server (server_script_path : String) :
    Except PyError StdioServerParameters :=
  let is_python := endsWithStr server_script_path ".py"
  let is_js := endsWithStr server_script_path ".js"
  if ¬(is_python ∨ is_js) then
    .error (.valueError "Server script must be a .py or .js file")
  else
    let command := if is_python then "python" else "node"
    .ok ⟨command, [server_script_path]⟩

/-- Python's `str(e)` on the modelled exceptions. -/
def errString : PyError → String
  | .valueError m => m
  | .toolExecutionError m => m
  | .transportError m => m
  | .indexError => "list index out of range"
  | .attributeError => "object has no attribute text"

/-- Python's `str.strip()` modelled over the character sequence: leading and
trailing whitespace removed. -/
def pyStrip (s : String) : String :=
  ⟨((s.data.dropWhile Char.isWhitespace).reverse.dropWhile Char.isWhitespace).reverse⟩

/-- Python's `str.lower()` modelled over the character sequence. -/
def pyLower (s : String) : String :=
  ⟨s.data.map Char.toLower⟩

/-- One line printed by the interactive driver: either a query's response or
the `Error: ...` line printed by the `except` clause. -/
inductive DriverOutput where
  | response (s : String)
  | errorMsg (s : String)
deriving DecidableEq, Repr

/-- Shallow embedding of `chat_loop`: the driver reads lines, stops on a
(case-insensitive, stripped) `quit`, and otherwise runs the query processor,
printing its answer on success and an error line on failure before reading
the next line with the same session. -/
def chat_loop (process : String → Except PyError String) :
    List String → List DriverOutput
  | [] => []
  | line :: rest =>
      let query := pyStrip line
      if pyLower query == "quit" then []
      else
        match process query with
        | .ok r => .response r :: chat_loop process rest
        | .error e => .errorMsg ("Error: " ++ errString e) :: chat_loop process rest

/-- Shallow embedding of `cleanup`: it awaits `exit_stack.aclose()` and does
not catch anything, so it returns exactly the outcome of the close. -/
def cleanup (aclose : Except PyError Unit) : Except PyError Unit :=
  aclose

/-- Shallow embedding of `main`'s `try ... finally: await client.cleanup()`:
cleanup runs on every exit path, and per Python semantics an exception raised
inside the `finally` block replaces the body's outcome and propagates. -/
def mainFlow (body : Except PyError Unit) (aclose : Except PyError Unit) :
    Except PyError Unit :=
  match cleanup aclose with
  | .error e => .error e
  | .ok _ => body

/-! Observation helpers over responses, traces and histories. -/

/-- The texts of the `text` blocks of a response, in order. -/
def textsOf : List ContentBlock → List String
  | [] => []
  | .text s :: rest => s :: textsOf rest
  | _ :: rest => textsOf rest

/-- The (name, input) pairs of the `tool_use` blocks of a response, in order. -/
def toolUsesOf : List ContentBlock → List (String × ToolInput)
  | [] => []
  | .toolUse _ n i :: rest => (n, i) :: toolUsesOf rest
  | _ :: rest => toolUsesOf rest

/-- The (name, input) pairs of the `toolCall` events of a trace, in order. -/
def toolCallsOf : List Event → List (String × ToolInput)
  | [] => []
  | .toolCall n i :: rest => (n, i) :: toolCallsOf rest
  | _ :: rest => toolCallsOf rest

/-- Number of model calls recorded in a trace. -/
def modelCallCount : List Event → Nat
  | [] => 0
  | .modelCall _ _ :: rest => modelCallCount rest + 1
  | _ :: rest => modelCallCount rest

/-- Number of catalog fetches recorded in a trace. -/
def listToolsCount : List Event → Nat
  | [] => 0
  | .listTools :: rest => listToolsCount rest + 1
  | _ :: rest => listToolsCount rest

/-- Number of assistant messages in a history. -/
def assistantCount (msgs : List Message) : Nat :=
  (msgs.filter fun m => m.role == "assistant").length

/-- If the message is a user message whose content is a single `tool_result`
block, its `tool_use_id`; `none` otherwise. -/
def toolResultId (m : Message) : Option String :=
  if m.role == "user" then
    match m.content with
    | .blocks [.toolResult tid _] => some tid
    | _ => none
  else none

/-- Number of committed tool_result user messages in a history. -/
def toolResultMsgCount (msgs : List Message) : Nat :=
  (msgs.filter fun m => (toolResultId m).isSome).length

/-- If the message is an assistant block message whose last block is a
`tool_use`, that block's id; `none` otherwise. -/
def lastToolUseId (m : Message) : Option String :=
  if m.role == "assistant" then
    match m.content with
    | .blocks bs =>
        match bs.getLast? with
        | some (.toolUse tid _ _) => some tid
        | _ => none
    | _ => none
  else none

/-- Adjacency relation for the round-trip property: whenever the second
message is a committed `tool_result`, the first message must be an assistant
message whose last block is the `tool_use` with the referenced id. -/
def resultPaired (m1 m2 : Message) : Prop :=
  ∀ tid, toolResultId m2 = some tid → lastToolUseId m1 = some tid

/-! Helper lemmas about the scanning loop. -/

/-- A scan over blocks with no `tool_use` only accumulates the text blocks:
no events are emitted, the history is untouched and the run succeeds with the
newline-joined transcript. -/
theorem scanBlocks_no_tool_use (env : Env) (tools : List ProviderTool) :
    ∀ (blocks : List ContentBlock), toolUsesOf blocks = [] →
    ∀ (ft : List String) (buf : List ContentBlock) (msgs : List Message),
      scanBlocks env tools blocks ft buf msgs
        = ⟨.ok (String.intercalate "\n" (ft ++ textsOf blocks)), [], msgs⟩ := by
  intro blocks
  induction blocks with
  | nil => intro _ ft buf msgs; simp [scanBlocks, textsOf]
  | cons b rest ih =>
    intro h ft buf msgs
    cases b with
    | text s =>
      have h' : toolUsesOf rest = [] := by simpa [toolUsesOf] using h
      simp [scanBlocks, ih h', textsOf]
    | toolUse id n i => simp [toolUsesOf] at h
    | toolResult tid c =>
      have h' : toolUsesOf rest = [] := by simpa [toolUsesOf] using h
      simp [scanBlocks, ih h', textsOf]

/-- In a scan that returns normally, the recorded tool calls are exactly the
(name, input) pairs of the scanned `tool_use` blocks in order, and one model
call is recorded per `tool_use` block. -/
theorem scanBlocks_ok_events (env : Env) (tools : List ProviderTool) :
    ∀ (blocks : List ContentBlock) (ft : List String) (buf : List ContentBlock)
      (msgs : List Message) (s : String),
      (scanBlocks env tools blocks ft buf msgs).result = .ok s →
      toolCallsOf (scanBlocks env tools blocks ft buf msgs).events
          = toolUsesOf blocks ∧
      modelCallCount (scanBlocks env tools blocks ft buf msgs).events
          = (toolUsesOf blocks).length := by
  intro blocks
  induction blocks with
  | nil => intro ft buf msgs s _; simp [scanBlocks, toolUsesOf, toolCallsOf, modelCallCount]
  | cons b rest ih =>
    intro ft buf msgs s hok
    cases b with
    | text t =>
      simp only [scanBlocks] at hok ⊢
      exact ih _ _ _ _ hok
    | toolResult tid c =>
      simp only [scanBlocks] at hok ⊢
      exact ih _ _ _ _ hok
    | toolUse id n i =>
      cases hc : env.callTool n i with
      | error e =>
        simp only [scanBlocks, hc] at hok
        simp at hok
      | ok res =>
        simp only [scanBlocks, hc] at hok ⊢
        cases hf : firstBlockText (env.model tools (msgs ++
            [⟨"assistant", .blocks (buf ++ [.toolUse id n i])⟩,
             ⟨"user", .blocks [.toolResult id res]⟩])) with
        | error e =>
          simp only [hf] at hok
          simp at hok
        | ok t =>
          simp only [hf] at hok ⊢
          simp only [List.append_assoc, List.singleton_append] at hok
          have := ih (ft ++ [toolNote n i, t]) (buf ++ [.toolUse id n i])
            (msgs ++ [⟨"assistant", .blocks (buf ++ [.toolUse id n i])⟩,
                      ⟨"user", .blocks [.toolResult id res]⟩]) s hok
          simp [toolCallsOf, modelCallCount, toolUsesOf, this.1, this.2]

/-- The scanning loop never fetches the tool catalog: `list_tools` is not
called from inside the `for` loop. -/
theorem scanBlocks_no_listTools (env : Env) (tools : List ProviderTool) :
    ∀ (blocks : List ContentBlock) (ft : List String) (buf : List ContentBlock)
      (msgs : List Message),
      listToolsCount (scanBlocks env tools blocks ft buf msgs).events = 0 := by
  intro blocks
  induction blocks with
  | nil => intro ft buf msgs; simp [scanBlocks, listToolsCount]
  | cons b rest ih =>
    intro ft buf msgs
    cases b with
    | text t => simp only [scanBlocks]; exact ih _ _ _
    | toolResult tid c => simp only [scanBlocks]; exact ih _ _ _
    | toolUse id n i =>
      cases hc : env.callTool n i with
      | error e => simp [scanBlocks, hc, listToolsCount]
      | ok res =>
        simp only [scanBlocks, hc]
        cases hf : firstBlockText (env.model tools (msgs ++
            [⟨"assistant", .blocks (buf ++ [.toolUse id n i])⟩,
             ⟨"user", .blocks [.toolResult id res]⟩])) with
        | error e => simp [hf, listToolsCount]
        | ok t => simp only [hf]; simp [listToolsCount, ih]

/-- Assistant-message counting distributes over history concatenation. -/
theorem assistantCount_append (l1 l2 : List Message) :
    assistantCount (l1 ++ l2) = assistantCount l1 + assistantCount l2 := by
  simp [assistantCount, List.filter_append]

/-- Tool-result counting distributes over history concatenation. -/
theorem toolResultMsgCount_append (l1 l2 : List Message) :
    toolResultMsgCount (l1 ++ l2) = toolResultMsgCount l1 + toolResultMsgCount l2 := by
  simp [toolResultMsgCount, List.filter_append]

/-- One committed assistant/tool_result message pair counts one assistant
message. -/
theorem assistantCount_commit_pair (bs : List ContentBlock) (tid res : String) :
    assistantCount [⟨"assistant", .blocks bs⟩, ⟨"user", .blocks [.toolResult tid res]⟩] = 1 := by
  simp [assistantCount]

/-- One committed assistant/tool_result message pair counts one tool_result
message. -/
theorem toolResultMsgCount_commit_pair (bs : List ContentBlock) (tid res : String) :
    toolResultMsgCount [⟨"assistant", .blocks bs⟩, ⟨"user", .blocks [.toolResult tid res]⟩] = 1 := by
  simp [toolResultMsgCount, toolResultId]

/-- In a scan that returns normally, one assistant message and one
`tool_result` user message are appended per scanned `tool_use` block. -/
theorem scanBlocks_ok_commits (env : Env) (tools : List ProviderTool) :
    ∀ (blocks : List ContentBlock) (ft : List String) (buf : List ContentBlock)
      (msgs : List Message) (s : String),
      (scanBlocks env tools blocks ft buf msgs).result = .ok s →
      assistantCount (scanBlocks env tools blocks ft buf msgs).messages
          = assistantCount msgs + (toolUsesOf blocks).length ∧
      toolResultMsgCount (scanBlocks env tools blocks ft buf msgs).messages
          = toolResultMsgCount msgs + (toolUsesOf blocks).length := by
  intro blocks
  induction blocks with
  | nil => intro ft buf msgs s _; simp [scanBlocks, toolUsesOf]
  | cons b rest ih =>
    intro ft buf msgs s hok
    cases b with
    | text t =>
      simp only [scanBlocks] at hok ⊢
      simpa [toolUsesOf] using ih _ _ _ _ hok
    | toolResult tid c =>
      simp only [scanBlocks] at hok ⊢
      simpa [toolUsesOf] using ih _ _ _ _ hok
    | toolUse id n i =>
      cases hc : env.callTool n i with
      | error e =>
        simp only [scanBlocks, hc] at hok
        simp at hok
      | ok res =>
        simp only [scanBlocks, hc] at hok ⊢
        cases hf : firstBlockText (env.model tools (msgs ++
            [⟨"assistant", .blocks (buf ++ [.toolUse id n i])⟩,
             ⟨"user", .blocks [.toolResult id res]⟩])) with
        | error e =>
          simp only [hf] at hok
          simp at hok
        | ok t =>
          simp only [hf] at hok ⊢
          simp only [List.append_assoc, List.singleton_append] at hok ⊢
          have := ih (ft ++ [toolNote n i, t]) (buf ++ [.toolUse id n i])
            (msgs ++ [⟨"assistant", .blocks (buf ++ [.toolUse id n i])⟩,
                      ⟨"user", .blocks [.toolResult id res]⟩]) s hok
          rw [this.1, this.2, assistantCount_append, toolResultMsgCount_append,
            assistantCount_commit_pair, toolResultMsgCount_commit_pair]
          simp [toolUsesOf]
          omega

/-- A commit pair satisfies the round-trip relation: the `tool_result` user
message references the id of the last block of the assistant message it
follows, which is the `tool_use` block just executed. -/
theorem resultPaired_commit_pair (buf : List ContentBlock) (id n : String)
    (i : ToolInput) (res : String) :
    resultPaired ⟨"assistant", .blocks (buf ++ [.toolUse id n i])⟩
      ⟨"user", .blocks [.toolResult id res]⟩ := by
  intro tid h
  simp [toolResultId] at h
  simp [lastToolUseId, List.getLast?_concat, h]

/-- Any message is `resultPaired` with a following assistant message, since
assistant messages are not `tool_result` commits. -/
theorem resultPaired_assistant (x : Message) (c : MsgContent) :
    resultPaired x ⟨"assistant", c⟩ := by
  intro tid h
  simp [toolResultId] at h

/-- The scanning loop preserves the round-trip chain invariant on the
history: each committed `tool_result` immediately follows the assistant
message whose last block is the matching `tool_use`. -/
theorem scanBlocks_chain (env : Env) (tools : List ProviderTool) :
    ∀ (blocks : List ContentBlock) (ft : List String) (buf : List ContentBlock)
      (msgs : List Message), List.Chain' resultPaired msgs →
      List.Chain' resultPaired (scanBlocks env tools blocks ft buf msgs).messages := by
  intro blocks
  induction blocks with
  | nil => intro ft buf msgs h; simpa [scanBlocks] using h
  | cons b rest ih =>
    intro ft buf msgs h
    cases b with
    | text t => simp only [scanBlocks]; exact ih _ _ _ h
    | toolResult tid c => simp only [scanBlocks]; exact ih _ _ _ h
    | toolUse id n i =>
      cases hc : env.callTool n i with
      | error e => simpa [scanBlocks, hc] using h
      | ok res =>
        simp only [scanBlocks, hc]
        have h' : List.Chain' resultPaired (msgs ++
            [⟨"assistant", .blocks (buf ++ [.toolUse id n i])⟩,
             ⟨"user", .blocks [.toolResult id res]⟩]) := by
          rw [List.chain'_append]
          refine ⟨h, ?_, ?_⟩
          · exact List.chain'_pair.mpr (resultPaired_commit_pair buf id n i res)
          · intro x _ y hy
            simp at hy
            subst hy
            exact resultPaired_assistant x _
        cases hf : firstBlockText (env.model tools (msgs ++
            [⟨"assistant", .blocks (buf ++ [.toolUse id n i])⟩,
             ⟨"user", .blocks [.toolResult id res]⟩])) with
        | error e => simpa [hf] using h'
        | ok t => simp only [hf]; exact ih _ _ _ h'

/-- The scanning loop only ever appends to the history. -/
theorem scanBlocks_messages_extend (env : Env) (tools : List ProviderTool) :
    ∀ (blocks : List ContentBlock) (ft : List String) (buf : List ContentBlock)
      (msgs : List Message),
      ∃ tail, (scanBlocks env tools blocks ft buf msgs).messages = msgs ++ tail := by
  intro blocks
  induction blocks with
  | nil => intro ft buf msgs; exact ⟨[], by simp [scanBlocks]⟩
  | cons b rest ih =>
    intro ft buf msgs
    cases b with
    | text t => simp only [scanBlocks]; exact ih _ _ _
    | toolResult tid c => simp only [scanBlocks]; exact ih _ _ _
    | toolUse id n i =>
      cases hc : env.callTool n i with
      | error e => exact ⟨[], by simp [scanBlocks, hc]⟩
      | ok res =>
        simp only [scanBlocks, hc]
        cases hf : firstBlockText (env.model tools (msgs ++
            [⟨"assistant", .blocks (buf ++ [.toolUse id n i])⟩,
             ⟨"user", .blocks [.toolResult id res]⟩])) with
        | error e =>
          exact ⟨[⟨"assistant", .blocks (buf ++ [.toolUse id n i])⟩,
                  ⟨"user", .blocks [.toolResult id res]⟩], by simp [hf]⟩
        | ok t =>
          simp only [hf]
          obtain ⟨tl, htl⟩ := ih (ft ++ [toolNote n i] ++ [t]) (buf ++ [.toolUse id n i])
            (msgs ++ [⟨"assistant", .blocks (buf ++ [.toolUse id n i])⟩,
                      ⟨"user", .blocks [.toolResult id res]⟩])
          refine ⟨[⟨"assistant", .blocks (buf ++ [.toolUse id n i])⟩,
                   ⟨"user", .blocks [.toolResult id res]⟩] ++ tl, ?_⟩
          simp only [List.append_assoc, List.singleton_append] at htl ⊢
          simpa using htl

/-- Scanning a prefix without `tool_use` blocks just moves its texts into the
transcript and the pending assistant-content buffer. -/
theorem scanBlocks_text_prefix_skip (env : Env) (tools : List ProviderTool) :
    ∀ (pre : List ContentBlock), toolUsesOf pre = [] →
    ∀ (rest : List ContentBlock) (ft : List String) (buf : List ContentBlock)
      (msgs : List Message),
      scanBlocks env tools (pre ++ rest) ft buf msgs
        = scanBlocks env tools rest (ft ++ textsOf pre)
            (buf ++ (textsOf pre).map ContentBlock.text) msgs := by
  intro pre
  induction pre with
  | nil => intro _ rest ft buf msgs; simp [textsOf]
  | cons b pre' ih =>
    intro h rest ft buf msgs
    cases b with
    | text s =>
      have h' : toolUsesOf pre' = [] := by simpa [toolUsesOf] using h
      simp only [List.cons_append, scanBlocks, List.append_eq]
      rw [ih h']
      simp [textsOf]
    | toolUse id n i => simp [toolUsesOf] at h
    | toolResult tid c =>
      have h' : toolUsesOf pre' = [] := by simpa [toolUsesOf] using h
      simp only [List.cons_append, scanBlocks, List.append_eq]
      rw [ih h']
      simp [textsOf]

/-- A path cannot end in both recognized extensions: the two three-character
suffixes differ, so a `.js` path is never also a `.py` path. -/
theorem endsWithStr_js_not_py (s : String) :
    endsWithStr s ".js" = true → endsWithStr s ".py" = false := by
  intro h
  have hjs : (".js".data) <:+ s.data := by
    simpa [endsWithStr, List.isSuffixOf_iff_suffix] using h
  simp only [endsWithStr]
  rw [Bool.eq_false_iff]
  intro hpy
  have hpy' : (".py".data) <:+ s.data := List.isSuffixOf_iff_suffix.mp hpy
  rcases List.suffix_or_suffix_of_suffix hjs hpy' with h1 | h1
  · exact absurd (h1.eq_of_length (by simp)) (by decide)
  · exact absurd (h1.eq_of_length (by simp)) (by decide)

/-! Concrete environments used as counterexamples and witnesses. -/

/-- Environment whose initial response requests tool `alpha` and whose
follow-up response contains text plus a further `tool_use` for `beta`. -/
def cexEnvC1 : Env :=
  { tools := []
  , model := fun _ msgs =>
      if msgs.length == 1 then [ContentBlock.toolUse "tu1" "alpha" []]
      else [ContentBlock.text "done", ContentBlock.toolUse "tu2" "beta" []]
  , callTool := fun _ _ => .ok "result" }

/-- Environment whose initial response carries two `tool_use` blocks. -/
def cexEnvC2 : Env :=
  { tools := []
  , model := fun _ msgs =>
      if msgs.length == 1 then
        [ContentBlock.toolUse "t1" "a" [], ContentBlock.toolUse "t2" "b" []]
      else [ContentBlock.text "ok"]
  , callTool := fun _ _ => .ok "r" }

/-- Environment whose model always answers with two text blocks. -/
def cexEnvC3 : Env :=
  { tools := []
  , model := fun _ _ => [ContentBlock.text "a", ContentBlock.text "b"]
  , callTool := fun _ _ => .ok "r" }

/-- Environment whose initial response requests tool `delta` with an argument
and whose follow-up response contains a `tool_use` for `gamma`. -/
def cexEnvC4 : Env :=
  { tools := []
  , model := fun _ msgs =>
      if msgs.length == 1 then
        [ContentBlock.toolUse "d1" "delta" [("x", "1")]]
      else [ContentBlock.text "t", ContentBlock.toolUse "g1" "gamma" []]
  , callTool := fun _ _ => .ok "42" }

/-- Environment with one text block, one tool call and a plain text follow-up:
a complete, successful single-tool run. -/
def wEnvTool : Env :=
  { tools := []
  , model := fun _ msgs =>
      if msgs.length == 1 then
        [ContentBlock.text "x", ContentBlock.toolUse "w1" "wtool" []]
      else [ContentBlock.text "y"]
  , callTool := fun _ _ => .ok "r" }

/-- Environment whose follow-up response is empty, so reading its first
content block raises IndexError. -/
def wEnvC10 : Env :=
  { tools := []
  , model := fun _ msgs =>
      if msgs.length == 1 then [ContentBlock.toolUse "f1" "ftool" []]
      else []
  , callTool := fun _ _ => .ok "r" }

/-! Claims. -/

/-- Claim C1, counterexample: in `cexEnvC1` the run executes tool `alpha`,
then sends the updated history back to the model; the follow-up response
contains a `tool_use` block for `beta`, yet the run terminates normally with
`alpha` as the only tool call — the orchestrator does not scan follow-up
responses for further `tool_use` blocks, contradicting the claimed loop. -/
theorem followup_tool_use_not_executed_cex :
    (process_query cexEnvC1 "q").result
        = .ok "[Calling tool alpha with args \x7b\x7d]\ndone"
  ∧ (process_query cexEnvC1 "q").events
      = [Event.listTools,
         Event.modelCall [] [⟨"user", .str "q"⟩],
         Event.toolCall "alpha" [],
         Event.modelCall []
           [⟨"user", .str "q"⟩,
            ⟨"assistant", .blocks [.toolUse "tu1" "alpha" []]⟩,
            ⟨"user", .blocks [.toolResult "tu1" "result"]⟩]]
  ∧ cexEnvC1.model []
        [⟨"user", .str "q"⟩,
         ⟨"assistant", .blocks [.toolUse "tu1" "alpha" []]⟩,
         ⟨"user", .blocks [.toolResult "tu1" "result"]⟩]
      = [ContentBlock.text "done", ContentBlock.toolUse "tu2" "beta" []]
  ∧ (toolCallsOf (process_query cexEnvC1 "q").events).map Prod.fst = ["alpha"] :=
  ⟨rfl, rfl, rfl, rfl⟩

/-- Claim C1, amended: `process_query` makes one model call per `tool_use`
block of the INITIAL response plus the initial call; follow-up responses are
not scanned for tool_use blocks, so no loop-until-no-tool-use takes place. -/
theorem process_query_single_scan (env : Env) (q s : String)
    (h : (process_query env q).result = .ok s) :
    modelCallCount (process_query env q).events
      = (toolUsesOf (env.model (toProviderSchema env.tools)
          [⟨"user", .str q⟩])).length + 1 := by
  have hs : (scanBlocks env (toProviderSchema env.tools)
      (env.model (toProviderSchema env.tools) [⟨"user", .str q⟩])
      [] [] [⟨"user", .str q⟩]).result = .ok s := by
    simpa [process_query] using h
  have he := scanBlocks_ok_events env (toProviderSchema env.tools) _ _ _ _ s hs
  simp [process_query, modelCallCount, he.2]

/-- Claim C1, witness for the amended theorem on a successful one-tool run. -/
theorem process_query_single_scan_witness :
    modelCallCount (process_query wEnvTool "q").events
      = (toolUsesOf (wEnvTool.model (toProviderSchema wEnvTool.tools)
          [⟨"user", .str "q"⟩])).length + 1 :=
  process_query_single_scan wEnvTool "q" "x\n[Calling tool wtool with args \x7b\x7d]\ny" rfl

/-- Claim C2, counterexample: one model response with two `tool_use` blocks
leads to TWO assistant commits (one per `tool_use` block, each carrying the
buffer accumulated so far), not to a single commit per model turn. -/
theorem assistant_commit_per_block_cex :
    cexEnvC2.model [] [⟨"user", .str "q"⟩]
        = [ContentBlock.toolUse "t1" "a" [], ContentBlock.toolUse "t2" "b" []]
  ∧ (process_query cexEnvC2 "q").result
      = .ok "[Calling tool a with args \x7b\x7d]\nok\n[Calling tool b with args \x7b\x7d]\nok"
  ∧ (process_query cexEnvC2 "q").messages
      = [⟨"user", .str "q"⟩,
         ⟨"assistant", .blocks [.toolUse "t1" "a" []]⟩,
         ⟨"user", .blocks [.toolResult "t1" "r"]⟩,
         ⟨"assistant", .blocks [.toolUse "t1" "a" [], .toolUse "t2" "b" []]⟩,
         ⟨"user", .blocks [.toolResult "t2" "r"]⟩]
  ∧ assistantCount (process_query cexEnvC2 "q").messages = 2 :=
  ⟨rfl, rfl, rfl, rfl⟩

/-- Claim C2, amended: the pending assistant-content buffer is committed once
per `tool_use` block of the initial response (each commit immediately
followed by one `tool_result` user message), so a response with exactly one
`tool_use` block produces exactly one assistant commit. -/
theorem assistant_commit_count (env : Env) (q s : String)
    (h : (process_query env q).result = .ok s) :
    assistantCount (process_query env q).messages
      = (toolUsesOf (env.model (toProviderSchema env.tools)
          [⟨"user", .str q⟩])).length
  ∧ toolResultMsgCount (process_query env q).messages
      = (toolUsesOf (env.model (toProviderSchema env.tools)
          [⟨"user", .str q⟩])).length := by
  have hs : (scanBlocks env (toProviderSchema env.tools)
      (env.model (toProviderSchema env.tools) [⟨"user", .str q⟩])
      [] [] [⟨"user", .str q⟩]).result = .ok s := by
    simpa [process_query] using h
  have hcnt := scanBlocks_ok_commits env (toProviderSchema env.tools) _ _ _ _ s hs
  constructor
  · have h0 : assistantCount [(⟨"user", .str q⟩ : Message)] = 0 := by
      simp [assistantCount]
    simpa [process_query, h0] using hcnt.1
  · have h0 : toolResultMsgCount [(⟨"user", .str q⟩ : Message)] = 0 := by
      simp [toolResultMsgCount, toolResultId]
    simpa [process_query, h0] using hcnt.2

/-- Claim C2, witness for the amended theorem: one `tool_use` block, one
assistant commit, one tool_result message. -/
theorem assistant_commit_count_witness :
    assistantCount (process_query wEnvTool "q").messages
      = (toolUsesOf (wEnvTool.model (toProviderSchema wEnvTool.tools)
          [⟨"user", .str "q"⟩])).length
  ∧ toolResultMsgCount (process_query wEnvTool "q").messages
      = (toolUsesOf (wEnvTool.model (toProviderSchema wEnvTool.tools)
          [⟨"user", .str "q"⟩])).length :=
  assistant_commit_count wEnvTool "q" "x\n[Calling tool wtool with args \x7b\x7d]\ny" rfl

/-- Claim C3, counterexample: with two text blocks and no tool use, the
returned string is the newline-JOINED text `"a\nb"`, not the plain
concatenation `"ab"` — the blocks are joined with a separator. -/
theorem text_join_newline_cex :
    cexEnvC3.model [] [⟨"user", .str "q"⟩]
        = [ContentBlock.text "a", ContentBlock.text "b"]
  ∧ toolUsesOf (cexEnvC3.model [] [⟨"user", .str "q"⟩]) = []
  ∧ (process_query cexEnvC3 "q").result = .ok "a\nb"
  ∧ modelCallCount (process_query cexEnvC3 "q").events = 1
  ∧ toolCallsOf (process_query cexEnvC3 "q").events = []
  ∧ (process_query cexEnvC3 "q").result ≠ .ok ("a" ++ "b") :=
  ⟨rfl, rfl, rfl, rfl, rfl, by
    intro h
    have h2 : Except.ok (ε := PyError) "a\nb" = .ok ("a" ++ "b") := h
    exact absurd (Except.ok.inj h2) (by decide)⟩

/-- Claim C3, amended: a query whose first model response has zero `tool_use`
blocks makes exactly one model call, zero tool calls, and returns that
response's text blocks joined with newline separators. -/
theorem process_query_text_only (env : Env) (q : String)
    (h : toolUsesOf (env.model (toProviderSchema env.tools)
        [⟨"user", .str q⟩]) = []) :
    (process_query env q).result
        = .ok (String.intercalate "\n" (textsOf (env.model (toProviderSchema env.tools)
            [⟨"user", .str q⟩])))
  ∧ modelCallCount (process_query env q).events = 1
  ∧ toolCallsOf (process_query env q).events = [] := by
  have hsc := scanBlocks_no_tool_use env (toProviderSchema env.tools) _ h
    [] [] [⟨"user", .str q⟩]
  refine ⟨?_, ?_, ?_⟩ <;>
    simp [process_query, hsc, modelCallCount, toolCallsOf]

/-- Claim C3, witness for the amended theorem on a two-text-block response. -/
theorem process_query_text_only_witness :
    (process_query cexEnvC3 "q").result
        = .ok (String.intercalate "\n" (textsOf (cexEnvC3.model (toProviderSchema cexEnvC3.tools)
            [⟨"user", .str "q"⟩])))
  ∧ modelCallCount (process_query cexEnvC3 "q").events = 1
  ∧ toolCallsOf (process_query cexEnvC3 "q").events = [] :=
  process_query_text_only cexEnvC3 "q" rfl

/-- Claim C4, counterexample: the follow-up model response delivered during
the `cexEnvC4` run contains a `tool_use` block for `gamma`, but the run's
only `callTool` invocation is for `delta` — `tool_use` blocks of responses
other than the initial one cause zero invocations. -/
theorem followup_block_zero_calls_cex :
    (process_query cexEnvC4 "q").result
        = .ok "[Calling tool delta with args \x7bx: 1\x7d]\nt"
  ∧ cexEnvC4.model []
        [⟨"user", .str "q"⟩,
         ⟨"assistant", .blocks [.toolUse "d1" "delta" [("x", "1")]]⟩,
         ⟨"user", .blocks [.toolResult "d1" "42"]⟩]
      = [ContentBlock.text "t", ContentBlock.toolUse "g1" "gamma" []]
  ∧ Event.modelCall []
        [⟨"user", .str "q"⟩,
         ⟨"assistant", .blocks [.toolUse "d1" "delta" [("x", "1")]]⟩,
         ⟨"user", .blocks [.toolResult "d1" "42"]⟩]
      ∈ (process_query cexEnvC4 "q").events
  ∧ toolCallsOf (process_query cexEnvC4 "q").events = [("delta", [("x", "1")])]
  ∧ (toolCallsOf (process_query cexEnvC4 "q").events).map Prod.fst = ["delta"] :=
  ⟨rfl, rfl, by decide, rfl, rfl⟩

/-- Claim C4, amended: restricted to the initial model response, each
`tool_use` block causes exactly one `callTool` invocation with that block's
name and input, in block order (the trace equals the block list, so the
executions are sequential with no interleaving). -/
theorem tool_calls_match_initial_response (env : Env) (q s : String)
    (h : (process_query env q).result = .ok s) :
    toolCallsOf (process_query env q).events
      = toolUsesOf (env.model (toProviderSchema env.tools) [⟨"user", .str q⟩]) := by
  have hs : (scanBlocks env (toProviderSchema env.tools)
      (env.model (toProviderSchema env.tools) [⟨"user", .str q⟩])
      [] [] [⟨"user", .str q⟩]).result = .ok s := by
    simpa [process_query] using h
  have he := scanBlocks_ok_events env (toProviderSchema env.tools) _ _ _ _ s hs
  simpa [process_query, toolCallsOf] using he.1

/-- Claim C4, witness for the amended theorem. -/
theorem tool_calls_match_initial_response_witness :
    toolCallsOf (process_query wEnvTool "q").events
      = toolUsesOf (wEnvTool.model (toProviderSchema wEnvTool.tools)
          [⟨"user", .str "q"⟩]) :=
  tool_calls_match_initial_response wEnvTool "q"
    "x\n[Calling tool wtool with args \x7b\x7d]\ny" rfl

/-- Claim C5: the interpreter is chosen from the script extension — `.py`
launches `python`, `.js` launches `node`, and any other extension raises the
ValueError before any launch parameters exist, so no subprocess is spawned. -/
theorem connect_dispatch (p : String) :
    (endsWithStr p ".py" = false → endsWithStr p ".js" = false →
        connect_to_server p = .error (.valueError "Server script must be a .py or .js file"))
  ∧ (endsWithStr p ".py" = true →
        connect_to_server p = .ok ⟨"python", [p]⟩)
  ∧ (endsWithStr p ".js" = true →
        connect_to_server p = .ok ⟨"node", [p]⟩) := by
  refine ⟨?_, ?_, ?_⟩
  · intro hpy hjs
    simp [connect_to_server, hpy, hjs]
  · intro hpy
    simp [connect_to_server, hpy]
  · intro hjs
    have hpy := endsWithStr_js_not_py p hjs
    simp [connect_to_server, hpy, hjs]

/-- Claim C5, witness: a `.txt` path is rejected with no spawn, a `.py` path
launches `python`, a `.js` path launches `node`. -/
theorem connect_dispatch_witness :
    connect_to_server "server.txt"
        = .error (.valueError "Server script must be a .py or .js file")
  ∧ connect_to_server "weather.py" = .ok ⟨"python", ["weather.py"]⟩
  ∧ connect_to_server "server.js" = .ok ⟨"node", ["server.js"]⟩ :=
  ⟨(connect_dispatch "server.txt").1 rfl rfl,
   (connect_dispatch "weather.py").2.1 rfl,
   (connect_dispatch "server.js").2.2 rfl⟩

/-- Claim C6: every `process_query` run begins by fetching the catalog once
and then calling the model with a fresh history holding exactly one user
message with the raw query; the catalog is never re-fetched later in the
run. -/
theorem history_seed_and_single_catalog_fetch (env : Env) (q : String) :
    (∃ rest, (process_query env q).events
        = Event.listTools
            :: Event.modelCall (toProviderSchema env.tools) [⟨"user", .str q⟩]
            :: rest)
  ∧ listToolsCount (process_query env q).events = 1 := by
  constructor
  · exact ⟨(scanBlocks env (toProviderSchema env.tools)
      (env.model (toProviderSchema env.tools) [⟨"user", .str q⟩])
      [] [] [⟨"user", .str q⟩]).events, rfl⟩
  · simp [process_query, listToolsCount, scanBlocks_no_listTools]

/-- Claim C7: in every run's final history the first message is the seeded
user query, and every committed `tool_result` user message immediately
follows an assistant message whose last content block is the `tool_use`
block carrying the referenced id — the id equality of the round trip. -/
theorem tool_result_round_trip (env : Env) (q : String) :
    List.Chain' resultPaired (process_query env q).messages
  ∧ (process_query env q).messages.head? = some ⟨"user", .str q⟩ := by
  constructor
  · have hch := scanBlocks_chain env (toProviderSchema env.tools)
      (env.model (toProviderSchema env.tools) [⟨"user", .str q⟩])
      [] [] [⟨"user", .str q⟩] (by simp)
    simpa [process_query] using hch
  · obtain ⟨tail, htail⟩ := scanBlocks_messages_extend env (toProviderSchema env.tools)
      (env.model (toProviderSchema env.tools) [⟨"user", .str q⟩])
      [] [] [⟨"user", .str q⟩]
    simp [process_query, htail]

/-- Claim C8: an error raised while processing one query is caught by the
driver, reported as an error line, and the loop goes on to the next input
lines with the same query processor (the same session); the failed query
leaves no state behind, since each call of the processor is independent. -/
theorem chat_loop_error_isolation (process : String → Except PyError String)
    (e : PyError) (line : String) (rest : List String)
    (hq : (pyLower (pyStrip line) == "quit") = false)
    (he : process (pyStrip line) = .error e) :
    chat_loop process (line :: rest)
      = DriverOutput.errorMsg ("Error: " ++ errString e) :: chat_loop process rest := by
  simp [chat_loop, hq, he]

/-- Query processor that always raises a ToolExecutionError. -/
def wProcessFail : String → Except PyError String :=
  fun _ => .error (.toolExecutionError "tool failed")

/-- Claim C8, witness: a failing query produces an error line and the loop
continues with the remaining input. -/
theorem chat_loop_error_isolation_witness :
    chat_loop wProcessFail ["hi", "next"]
      = DriverOutput.errorMsg ("Error: " ++ errString (.toolExecutionError "tool failed"))
          :: chat_loop wProcessFail ["next"] :=
  chat_loop_error_isolation wProcessFail (.toolExecutionError "tool failed")
    "hi" ["next"] rfl rfl

/-- Claim C9, counterexample: a failure raised while releasing resources in
`cleanup` becomes the outcome of `main` itself — the error propagates past
the top level instead of being caught and logged. -/
theorem cleanup_error_propagates_cex :
    mainFlow (.ok ()) (.error (.transportError "close failed"))
      = .error (.transportError "close failed") := rfl

/-- Claim C9, amended: cleanup is invoked unconditionally, but an error it
raises replaces the body's outcome and propagates out of `main`; only when
cleanup succeeds is the body's outcome returned. -/
theorem cleanup_error_propagates (body : Except PyError Unit) (e : PyError) :
    mainFlow body (.error e) = .error e ∧ mainFlow body (.ok ()) = body :=
  ⟨rfl, rfl⟩

/-- Claim C10: once a `tool_use` block has been executed and committed, the
follow-up model response is consumed ONLY through `response.content[0].text`:
the run's outcome is a function of the follow-up's first block alone — if the
follow-up is empty or its first block is not a text block, `process_query`
raises (IndexError / AttributeError); otherwise the first block's text is
appended and scanning of the initial response continues. -/
theorem followup_first_block_only (env : Env) (q : String)
    (pre post : List ContentBlock) (id n : String) (i : ToolInput) (res : String)
    (hinit : env.model (toProviderSchema env.tools) [⟨"user", .str q⟩]
        = pre ++ ContentBlock.toolUse id n i :: post)
    (hpre : toolUsesOf pre = [])
    (hpost : toolUsesOf post = [])
    (hcall : env.callTool n i = .ok res) :
    (process_query env q).result
      = match firstBlockText (env.model (toProviderSchema env.tools)
          [⟨"user", .str q⟩,
           ⟨"assistant", .blocks ((textsOf pre).map ContentBlock.text
              ++ [ContentBlock.toolUse id n i])⟩,
           ⟨"user", .blocks [ContentBlock.toolResult id res]⟩]) with
        | .error e => .error e
        | .ok t => .ok (String.intercalate "\n"
            (textsOf pre ++ [toolNote n i, t] ++ textsOf post)) := by
  have hmain : (process_query env q).result
      = (scanBlocks env (toProviderSchema env.tools)
          (pre ++ ContentBlock.toolUse id n i :: post)
          [] [] [⟨"user", .str q⟩]).result := by
    simp [process_query, hinit]
  rw [hmain, scanBlocks_text_prefix_skip env _ pre hpre]
  simp only [List.nil_append, scanBlocks, hcall, List.cons_append, List.singleton_append]
  cases hf : firstBlockText (env.model (toProviderSchema env.tools)
      [⟨"user", .str q⟩,
       ⟨"assistant", .blocks ((textsOf pre).map ContentBlock.text
          ++ [ContentBlock.toolUse id n i])⟩,
       ⟨"user", .blocks [ContentBlock.toolResult id res]⟩]) with
  | error e => simp [hf]
  | ok t =>
    simp only [hf]
    rw [scanBlocks_no_tool_use env _ post hpost]
    simp [List.append_assoc]

/-- Claim C10, witness: in `wEnvC10` the follow-up response is empty, so the
query raises IndexError rather than processing anything. -/
theorem followup_first_block_only_witness :
    (process_query wEnvC10 "q").result = .error .indexError := by
  have h := followup_first_block_only wEnvC10 "q" [] [] "f1" "ftool" [] "r"
    rfl rfl rfl rfl
  simpa using h
